import Mathlib

/-!
Verification of the sequence-encoding pipeline and the resource-adaptive
algorithm selector of the TreeNode.RapidNJ native wrapper
(`rapidNJWrapper.cpp`, `dataLoaderPointer.hpp`).

Conventions of the embedding:
* C++ `double` arithmetic in the resource estimator / selector is modelled
  exactly over `ℚ`; the `(int)` cast is truncation toward zero (`truncQ`).
* Machine integers are modelled by `ℕ`/`ℤ`; the bit-packed storage words are
  `ℕ` (field values stay far below `2 ^ 32`, so no wraparound occurs).
* Constants that live in the upstream rapidNJ headers (not part of this
  repository's sources) are introduced as explicit definitions with a note.
-/

/-- The alphabet tag of the loader (`InputType` in the rapidNJ headers). -/
inductive InputType
  | DNA
  | PROTEIN
  | UNKNOWN
  deriving DecidableEq

/-- Normalization of one raw symbol, transcribed from
`dataloaderPointer::resolveChar` (dataLoaderPointer.hpp, lines 82-100):
for DNA anything other than upper/lower a,c,g,t,u becomes the gap `'-'`,
otherwise the character passes through unchanged; for protein the explicit
sentinel set becomes `'-'` and everything else passes through. -/
def resolveChar (type : InputType) (c : Char) : Char :=
  if type = .DNA then
    if ¬(c = 'a' ∨ c = 'A' ∨ c = 'c' ∨ c = 'C' ∨ c = 'g' ∨ c = 'G' ∨
         c = 't' ∨ c = 'T' ∨ c = 'u' ∨ c = 'U') then
      '-'
    else
      c
  else
    if c = '-' ∨ c = '.' ∨ c = 'X' ∨ c = 'x' ∨ c = 'z' ∨ c = 'Z' ∨
       c = 'b' ∨ c = 'B' ∨ c = 'J' ∨ c = 'j' ∨ c = '?' then
      '-'
    else
      c

/-- 2-bit nucleotide code for A. Modelled from the spec: the codes live in
the upstream `bitStringUtils.hpp`, which is not part of this repository's
sources; the spec fixes A as the zero code and C, G, T as distinct non-zero
2-bit codes. -/
def Abin : ℕ := 0

/-- 2-bit nucleotide code for C (see `Abin`). -/
def Cbin : ℕ := 1

/-- 2-bit nucleotide code for G (see `Abin`). -/
def Gbin : ℕ := 2

/-- 2-bit nucleotide code for T (see `Abin`). -/
def Tbin : ℕ := 3

/-- Bits per storage word (`unsigned int`). Modelled from the upstream
`BLOCK_SIZE` constant, not part of this repository's sources; its value 32 is
forced by the allocation arithmetic of `dataloaderPointer`: each of the
`bitStringsCount` blocks is 4 words of `sizeof(unsigned int)` bytes holding
64 two-bit nucleotide symbols, hence `BLOCK_SIZE / 2 = 16` symbols per word. -/
def BLOCK_SIZE : ℕ := 32

/-- One arm of the `switch` in `dataloaderPointer::encodeDNASequence`
(dataLoaderPointer.hpp, lines 133-157): the 2-bit code added to the
`bitString` word and whether a validity mark (`Gbin`) is added to the
`gapFilter` word.  A contributes no bits (its code is zero) but is marked
valid; the `default` arm does nothing (gap sentinel, not valid). -/
def dnaCase (c : Char) : ℕ × Bool :=
  if c = 'A' ∨ c = 'a' then (Abin, true)
  else if c = 'C' ∨ c = 'c' then (Cbin, true)
  else if c = 'G' ∨ c = 'g' then (Gbin, true)
  else if c = 'T' ∨ c = 't' then (Tbin, true)
  else (0, false)

/-- Storage word `idx` of the packed nucleotide representation built by the
loop in `encodeDNASequence`: position `i = idx * (BLOCK_SIZE/2) + offset`
contributes `code << (offset * 2)`; positions beyond the sequence length
(the padding loop, lines 160-167) contribute nothing. -/
def encodeDNAWord (data : List Char) (idx : ℕ) : ℕ :=
  (List.range (BLOCK_SIZE / 2)).foldl
    (fun w off =>
      match data.get? (idx * (BLOCK_SIZE / 2) + off) with
      | some c => w + (dnaCase c).1 * 4 ^ off
      | none => w)
    0

/-- Storage word `idx` of the validity (gap-filter) mask built by the same
loop: a canonical base contributes `Gbin << (offset * 2)`, a gap or any
other character contributes nothing. -/
def gapFilterWord (data : List Char) (idx : ℕ) : ℕ :=
  (List.range (BLOCK_SIZE / 2)).foldl
    (fun w off =>
      match data.get? (idx * (BLOCK_SIZE / 2) + off) with
      | some c => w + (if (dnaCase c).2 then Gbin else 0) * 4 ^ off
      | none => w)
    0

/-- Number of 128-bit storage blocks allocated per nucleotide sequence of
length `L`, from the `dataloaderPointer` constructor (line 26):
`bitStringsCount = sequenceLength / 64 + 6` (C integer division). -/
def bitStringsCountDNA (L : ℕ) : ℕ := L / 64 + 6

/-- Number of 128-bit storage blocks allocated per protein sequence of
length `L`, from the `dataloaderPointer` constructor (line 31):
`bitStringsCount = sequenceLength / 16 + 8`. -/
def bitStringsCountProtein (L : ℕ) : ℕ := L / 16 + 8

/-- The nucleotide block count as the specification states it:
`ceil(L / (bitsPerWord/2)) + 6` with 64 symbols per word. -/
def claimedBlockCountDNA (L : ℕ) : ℕ := (L + 63) / 64 + 6

/-- The protein block count as the specification states it: `ceil(L/4) + 8`. -/
def claimedBlockCountProtein (L : ℕ) : ℕ := (L + 3) / 4 + 8

/-- Truncation toward zero: the semantics of the C++ `(int)` cast applied to
a (here exactly-modelled) floating-point value. -/
def truncQ (q : ℚ) : ℤ := if 0 ≤ q then ⌊q⌋ else ⌈q⌉

/-- Memory cost of the full distance matrix, from `computeTree`
(rapidNJWrapper.cpp, line 294): `sizeof(distType) * N * N`.  `D` stands for
`sizeof(distType)`, whose value (8, a double) the spec fixes; the typedef
itself lives in the upstream headers. -/
def fullMatrixCost (D N : ℕ) : ℚ := (D : ℚ) * N * N

/-- Memory cost of the fully materialised sorted matrix, from `computeTree`
(line 295): `N * N * sizeof(cluster_pair)`.  `P` stands for
`sizeof(cluster_pair)` (a (distance, index) record in the upstream headers). -/
def sortedMatrixCost (P N : ℕ) : ℚ := (N : ℚ) * N * P

/-- The candidate sorted-matrix size, from `computeTree` (lines 296-297):
`(int)((systemMemory - matrixMemUsage / 2) / (N * sizeof(cluster_pair)))`
followed by `min(_, matrixSize)`.  Note there is no lower clamp here. -/
def sortedMatrixSize (D P N : ℕ) (M : ℚ) : ℤ :=
  min (truncQ ((M - fullMatrixCost D N / 2) / ((N : ℚ) * P))) (N : ℤ)

/-- The disk-strategy auxiliary-structure size, from `computeTree`
(lines 298-300): `(int)(systemMemory / (N * (sizeof(cluster_pair) +
sizeof(distType))))`, then `min(_, N)`, then `max(_, min(5, N))`. -/
def diskSortedMatrixSize (D P N : ℕ) (M : ℚ) : ℤ :=
  max (min (truncQ (M / ((N : ℚ) * (P + D)))) (N : ℤ)) (min 5 (N : ℤ))

/-- The user overrides consumed by the selection logic of `computeTree`:
`options::rapidNJ`, `options::cacheDir != ""`, `options::percentageMemoryUsage`
(carrying the `atoi` result when a string was supplied), and
`options::simpleNJ`. -/
structure Overrides where
  forceRapidNJ : Bool
  useCacheDir : Bool
  percentageMemoryUsage : Option ℤ
  forceSimpleNJ : Bool
  deriving DecidableEq

/-- No override set: the automatic decision path. -/
def noOverrides : Overrides := ⟨false, false, none, false⟩

/-- `autoDecide` from `computeTree` (lines 291, 304-306): false as soon as
any override is present. -/
def autoDecide (ov : Overrides) : Bool :=
  !(ov.forceRapidNJ || ov.useCacheDir ||
    ov.percentageMemoryUsage.isSome || ov.forceSimpleNJ)

/-- The fatal configuration error of the selection logic: a memory-use
percentage outside 0-100 (`exit(1)` at line 343 of rapidNJWrapper.cpp). -/
inductive ConfigError
  | badPercentage
  deriving DecidableEq

/-- The strategy chosen by `computeTree`: full in-memory RapidNJ,
memory-bounded RapidNJ with a sorted matrix of the given number of columns,
naive NJ, or disk-backed RapidNJ with the given structure size. -/
inductive AlgorithmChoice
  | fullMemory
  | boundedMemory (size : ℤ)
  | naive
  | disk (size : ℤ)
  deriving DecidableEq

/-- Guard of the first branch of `computeTree` (line 312):
`options::rapidNJ || (autoDecide && sortedMatrixMemUsage + matrixMemUsage <=
systemMemory)`. -/
def cond1 (D P N : ℕ) (M : ℚ) (ov : Overrides) : Bool :=
  ov.forceRapidNJ ||
    (autoDecide ov && decide (sortedMatrixCost P N + fullMatrixCost D N ≤ M))

/-- Guard of the second branch of `computeTree` (line 333):
`options::percentageMemoryUsage != "" || (autoDecide && sortedMatrixSize >=
matrixSize * MIN_SORTED_MATRIX_SIZE)`; `mf` is the upstream tunable
`MIN_SORTED_MATRIX_SIZE` fraction. -/
def cond2 (mf : ℚ) (D P N : ℕ) (M : ℚ) (ov : Overrides) : Bool :=
  ov.percentageMemoryUsage.isSome ||
    (autoDecide ov && decide ((N : ℚ) * mf ≤ (sortedMatrixSize D P N M : ℚ)))

/-- The algorithm-selection logic of `computeTree` (rapidNJWrapper.cpp,
lines 289-379), with the strategy it dispatches to as the value and the
fatal out-of-range percentage (`exit(1)`) as the error.  In the bounded
branch a supplied percentage `p` replaces the computed size by
`(int)(matrixSize * (p / 100.0))` (lines 337-350) and the final
`if (sortedMatrixSize < 1) sortedMatrixSize = 1` clamp (lines 354-356) is
the `max _ 1`. -/
def selectAlgorithm (mf : ℚ) (D P N : ℕ) (M : ℚ) (ov : Overrides) :
    Except ConfigError AlgorithmChoice :=
  if cond1 D P N M ov then
    .ok .fullMemory
  else if cond2 mf D P N M ov then
    match ov.percentageMemoryUsage with
    | some p =>
      if p < 0 ∨ 100 < p then
        .error .badPercentage
      else
        .ok (.boundedMemory (max (truncQ ((N : ℚ) * ((p : ℚ) / 100))) 1))
    | none => .ok (.boundedMemory (max (sortedMatrixSize D P N M) 1))
  else if ov.forceSimpleNJ then
    .ok .naive
  else
    .ok (.disk (diskSortedMatrixSize D P N M))

/-- The memory-capability tier of a choice, for the monotonicity ordering
`FullMemory > BoundedMemory > Disk` (`Naive` is override-only and shares the
bottom slot, but is excluded from every ordering statement). -/
def tier : AlgorithmChoice → ℕ
  | .fullMemory => 2
  | .boundedMemory _ => 1
  | .naive => 0
  | .disk _ => 0

/-- Zero-pads a decimal numeral to 6 digits (the fractional part of the
fixed-precision output). -/
def pad6 (n : ℕ) : String :=
  String.mk (List.replicate (6 - (toString n).length) '0') ++ toString n

/-- Modelled from the spec: the `setprecision(6) << fixed` iostream rendering
of one distance (the stream formatter is outside this repository's sources);
the exactly-modelled rational value is rounded to 6 decimal places. -/
def fmt6 (q : ℚ) : String :=
  (if q < 0 then "-" else "") ++
    toString (round (|q| * 1000000) / 1000000) ++ "." ++
    pad6 (round (|q| * 1000000) % 1000000).toNat

/-- Concatenation of a stream of chunks, modelling sequential `<<` writes. -/
def concatChunks (l : List String) : String := l.foldr (· ++ ·) ""

/-- Text serialization of an `N`-by-`N` distance matrix, transcribed from
`printDistanceMatrix` (rapidNJWrapper.cpp, lines 57-66): a tab, the size,
`endl`, then for each row the name, a tab, and for each entry the formatted
distance followed by one space, then `endl`. -/
def printDistanceMatrix (N : ℕ) (names : ℕ → String) (matrix : ℕ → ℕ → ℚ) :
    String :=
  "\t" ++ toString N ++ "\n" ++
    concatChunks ((List.range N).map (fun i =>
      names i ++ "\t" ++
        concatChunks ((List.range N).map (fun j => fmt6 (matrix i j) ++ " ")) ++
        "\n"))

/-- Space-separated row rendering, for stating the format the spec claims. -/
def sepBySpace : List String → String
  | [] => ""
  | [a] => a
  | a :: b :: rest => a ++ " " ++ sepBySpace (b :: rest)

/-- The matrix serialization as the specification states it: each row is
`<name>\t<d_1> <d_2> ... <d_N>` (space-separated, no trailing space). -/
def claimedPrintDistanceMatrix (N : ℕ) (names : ℕ → String)
    (matrix : ℕ → ℕ → ℚ) : String :=
  "\t" ++ toString N ++ "\n" ++
    concatChunks ((List.range N).map (fun i =>
      names i ++ "\t" ++
        sepBySpace ((List.range N).map (fun j => fmt6 (matrix i j))) ++
        "\n"))

/-! ## Helper lemmas -/

theorem truncQ_eq_floor {q : ℚ} (h : 0 ≤ q) : truncQ q = ⌊q⌋ := by
  simp [truncQ, h]

theorem truncQ_eq_ceil {q : ℚ} (h : ¬0 ≤ q) : truncQ q = ⌈q⌉ := by
  simp [truncQ, h]

theorem truncQ_nonneg {q : ℚ} (h : 0 ≤ q) : 0 ≤ truncQ q := by
  rw [truncQ_eq_floor h]
  exact Int.le_floor.mpr (by exact_mod_cast h)

theorem truncQ_mono {a b : ℚ} (h : a ≤ b) : truncQ a ≤ truncQ b := by
  unfold truncQ
  split
  · split
    · exact Int.floor_le_floor h
    · linarith [le_trans ‹0 ≤ a› h]
  · split
    · calc (⌈a⌉ : ℤ) ≤ 0 := Int.ceil_le.mpr (by exact_mod_cast le_of_lt (not_le.mp ‹¬0 ≤ a›))
        _ ≤ ⌊b⌋ := Int.le_floor.mpr (by exact_mod_cast ‹0 ≤ b›)
    · exact Int.ceil_le_ceil h

theorem sortedMatrixSize_le (D P N : ℕ) (M : ℚ) :
    sortedMatrixSize D P N M ≤ (N : ℤ) :=
  min_le_right _ _

theorem sortedMatrixSize_mono (D P N : ℕ) {M₁ M₂ : ℚ} (h : M₁ ≤ M₂) :
    sortedMatrixSize D P N M₁ ≤ sortedMatrixSize D P N M₂ := by
  unfold sortedMatrixSize
  apply min_le_min _ le_rfl
  apply truncQ_mono
  rcases lt_or_eq_of_le (show (0 : ℚ) ≤ (N : ℚ) * P by positivity) with hpos | hzero
  · exact (div_le_div_iff_of_pos_right hpos).mpr (by linarith)
  · rw [← hzero]
    simp

theorem cond1_mono {D P N : ℕ} {M₁ M₂ : ℚ} {ov : Overrides} (hM : M₁ ≤ M₂)
    (h : cond1 D P N M₁ ov = true) : cond1 D P N M₂ ov = true := by
  simp only [cond1, Bool.or_eq_true, Bool.and_eq_true, decide_eq_true_eq] at h ⊢
  rcases h with h | ⟨ha, hle⟩
  · exact Or.inl h
  · exact Or.inr ⟨ha, le_trans hle hM⟩

theorem cond2_mono {mf : ℚ} {D P N : ℕ} {M₁ M₂ : ℚ} {ov : Overrides}
    (hM : M₁ ≤ M₂) (h : cond2 mf D P N M₁ ov = true) :
    cond2 mf D P N M₂ ov = true := by
  simp only [cond2, Bool.or_eq_true, Bool.and_eq_true, decide_eq_true_eq] at h ⊢
  rcases h with h | ⟨ha, hle⟩
  · exact Or.inl h
  · refine Or.inr ⟨ha, le_trans hle ?_⟩
    exact_mod_cast sortedMatrixSize_mono D P N hM

theorem cond1_noOverrides (D P N : ℕ) (M : ℚ) :
    cond1 D P N M noOverrides =
      decide (sortedMatrixCost P N + fullMatrixCost D N ≤ M) := by
  simp [cond1, autoDecide, noOverrides]

theorem cond2_noOverrides (mf : ℚ) (D P N : ℕ) (M : ℚ) :
    cond2 mf D P N M noOverrides =
      decide ((N : ℚ) * mf ≤ (sortedMatrixSize D P N M : ℚ)) := by
  simp [cond2, autoDecide, noOverrides]

theorem sortedMatrixSize_scenarioA :
    sortedMatrixSize 8 16 1000 1048576 = -184 := by
  have h1 : ((1048576 : ℚ) - fullMatrixCost 8 1000 / 2) /
      (((1000 : ℕ) : ℚ) * ((16 : ℕ) : ℚ)) = -23058 / 125 := by
    unfold fullMatrixCost
    push_cast
    norm_num
  have h2 : (⌈(-23058 / 125 : ℚ)⌉ : ℤ) = -184 := by
    rw [Int.ceil_eq_iff]
    constructor <;> norm_num
  unfold sortedMatrixSize
  rw [h1, truncQ_eq_ceil (by norm_num), h2]
  decide

theorem diskSortedMatrixSize_scenarioA :
    diskSortedMatrixSize 8 16 1000 1048576 = 43 := by
  have h1 : (1048576 : ℚ) / (((1000 : ℕ) : ℚ) * (((16 : ℕ) : ℚ) + ((8 : ℕ) : ℚ))) =
      16384 / 375 := by
    push_cast
    norm_num
  have h2 : (⌊(16384 / 375 : ℚ)⌋ : ℤ) = 43 := by
    rw [Int.floor_eq_iff]
    constructor <;> norm_num
  unfold diskSortedMatrixSize
  rw [h1, truncQ_eq_floor (by norm_num), h2]
  decide

theorem selectAlgorithm_scenarioA {mf : ℚ} (hmf : 0 ≤ mf) :
    selectAlgorithm mf 8 16 1000 1048576 noOverrides = .ok (.disk 43) := by
  have hc1 : cond1 8 16 1000 1048576 noOverrides = false := by
    rw [cond1_noOverrides]
    simp only [decide_eq_false_iff_not, sortedMatrixCost, fullMatrixCost]
    push_cast
    norm_num
  have hc2 : cond2 mf 8 16 1000 1048576 noOverrides = false := by
    rw [cond2_noOverrides, sortedMatrixSize_scenarioA]
    simp only [decide_eq_false_iff_not]
    push_cast
    intro h
    nlinarith
  rw [selectAlgorithm, if_neg (by simp [hc1]), if_neg (by simp [hc2]),
    if_neg (by simp [noOverrides]), diskSortedMatrixSize_scenarioA]

theorem selectAlgorithm_scenarioB (mf : ℚ) :
    selectAlgorithm mf 8 16 10 1073741824 noOverrides = .ok .fullMemory := by
  have hc1 : cond1 8 16 10 1073741824 noOverrides = true := by
    rw [cond1_noOverrides]
    simp only [decide_eq_true_eq, sortedMatrixCost, fullMatrixCost]
    push_cast
    norm_num
  rw [selectAlgorithm, if_pos hc1]

/-! ## Claim C1 — nucleotide normalization policy -/

/-- C1 (counterexample): the normalization policy is not uniform across the
two encoding paths: `resolveChar` keeps `'U'` as a canonical (non-gap)
nucleotide, while the bit-packed path of `encodeDNASequence` has no case for
`'U'` and treats it as a gap (no validity mark). -/
theorem dna_normalization_not_uniform :
    resolveChar .DNA 'U' = 'U' ∧ resolveChar .DNA 'U' ≠ '-' ∧
    dnaCase 'U' = (0, false) ∧ dnaCase 'u' = (0, false) := by
  decide

/-- C1 (amended): `resolveChar` maps exactly upper/lower A, C, G, T, U to
themselves and every other character to the gap `'-'`, while the bit-packed
path accepts exactly upper/lower A, C, G, T as canonical — so the two paths
agree except on `'u'`/`'U'`, which only the plain path keeps. -/
theorem dna_normalization_policy (c : Char) :
    (resolveChar .DNA c =
      if c = 'a' ∨ c = 'A' ∨ c = 'c' ∨ c = 'C' ∨ c = 'g' ∨ c = 'G' ∨
         c = 't' ∨ c = 'T' ∨ c = 'u' ∨ c = 'U' then c else '-') ∧
    ((dnaCase c).2 = true ↔
      (c = 'A' ∨ c = 'a' ∨ c = 'C' ∨ c = 'c' ∨ c = 'G' ∨ c = 'g' ∨
       c = 'T' ∨ c = 't')) := by
  constructor
  · simp only [resolveChar, if_pos rfl, reduceIte]
    by_cases h : c = 'a' ∨ c = 'A' ∨ c = 'c' ∨ c = 'C' ∨ c = 'g' ∨ c = 'G' ∨
        c = 't' ∨ c = 'T' ∨ c = 'u' ∨ c = 'U'
    · simp [h]
    · simp [h]
  · unfold dnaCase
    split_ifs with h1 h2 h3 h4 <;> simp <;> tauto

/-! ## Claim C6 — encoded storage block sizes -/

/-- C6 (counterexample): for sequence length 16, the nucleotide block count
is `16 / 64 + 6 = 6`, not the claimed `ceil(16/64) + 6 = 7`, and the protein
block count is `16 / 16 + 8 = 9`, not the claimed `ceil(16/4) + 8 = 12`. -/
theorem encoded_block_size_counterexample :
    bitStringsCountDNA 16 ≠ claimedBlockCountDNA 16 ∧
    bitStringsCountProtein 16 ≠ claimedBlockCountProtein 16 := by
  decide

/-- C6 (amended): the allocated block counts use flooring integer division —
`L / 64 + 6` blocks for nucleotide data and `L / 16 + 8` for protein data —
which always cover the `L` packed symbols (padding is nonnegative); the
claimed ceiling-based nucleotide formula agrees exactly when `64 ∣ L`, and
the claimed protein formula `ceil(L/4) + 8` never agrees for `L ≥ 1`. -/
theorem encoded_block_size (L : ℕ) :
    L ≤ 64 * bitStringsCountDNA L ∧
    L ≤ 16 * bitStringsCountProtein L ∧
    (bitStringsCountDNA L = claimedBlockCountDNA L ↔ 64 ∣ L) ∧
    (1 ≤ L → bitStringsCountProtein L ≠ claimedBlockCountProtein L) := by
  unfold bitStringsCountDNA bitStringsCountProtein claimedBlockCountDNA
    claimedBlockCountProtein
  refine ⟨by omega, by omega, ⟨fun h => ?_, fun h => ?_⟩, by omega⟩ <;> omega

/-- C6 (witness): the amended statement evaluated at `L = 64`. -/
theorem encoded_block_size_witness :
    64 ≤ 64 * bitStringsCountDNA 64 ∧
    64 ≤ 16 * bitStringsCountProtein 64 ∧
    bitStringsCountDNA 64 = claimedBlockCountDNA 64 ∧
    bitStringsCountProtein 64 ≠ claimedBlockCountProtein 64 := by
  have h := encoded_block_size 64
  exact ⟨h.1, h.2.1, h.2.2.1.mpr (by decide), h.2.2.2 (by decide)⟩

/-! ## Claim C7 — gap masking for "AC-GN" -/

/-- C7: encoding the nucleotide input "AC-GN" assigns the canonical 2-bit
codes at positions 0, 1, 3 (A, C, G), the zero-bit gap sentinel at positions
2 and 4 (`'-'`, `'N'`), and the validity mask carries a non-zero mark exactly
at positions 0, 1 and 3 (its word is `Gbin` at those three offsets and
nothing else). -/
theorem gap_masking_ACGN :
    encodeDNAWord "AC-GN".toList 0 / 4 ^ 0 % 4 = Abin ∧
    encodeDNAWord "AC-GN".toList 0 / 4 ^ 1 % 4 = Cbin ∧
    encodeDNAWord "AC-GN".toList 0 / 4 ^ 3 % 4 = Gbin ∧
    encodeDNAWord "AC-GN".toList 0 / 4 ^ 2 % 4 = 0 ∧
    encodeDNAWord "AC-GN".toList 0 / 4 ^ 4 % 4 = 0 ∧
    gapFilterWord "AC-GN".toList 0 / 4 ^ 0 % 4 ≠ 0 ∧
    gapFilterWord "AC-GN".toList 0 / 4 ^ 1 % 4 ≠ 0 ∧
    gapFilterWord "AC-GN".toList 0 / 4 ^ 3 % 4 ≠ 0 ∧
    gapFilterWord "AC-GN".toList 0 / 4 ^ 2 % 4 = 0 ∧
    gapFilterWord "AC-GN".toList 0 / 4 ^ 4 % 4 = 0 ∧
    gapFilterWord "AC-GN".toList 0 = Gbin * (4 ^ 0 + 4 ^ 1 + 4 ^ 3) := by
  decide

/-! ## Claim C2 — sorted-matrix size estimation -/

/-- C2 (counterexample): for N = 1000, per-entry distance size 8, per-entry
sorted-pair size 16 and M = 1 MB, the computed `sortedMatrixSize` is -184:
negative intermediate results are NOT clamped to 0 by the estimator, so the
value handed to the selector's threshold test is negative. -/
theorem sortedMatrixSize_negative :
    sortedMatrixSize 8 16 1000 1048576 < 0 := by
  rw [sortedMatrixSize_scenarioA]
  decide

/-- C2 (amended): the estimator computes `sortedMatrixSize` as the
truncation toward zero of `(M - fullMatrixCost/2) / (N * perEntryPairSize)`
clamped above by `N` only; it is therefore always at most `N`, and it is
nonnegative whenever the budget covers half the full-matrix cost — but
below that budget the negative value propagates to the selector unclamped
(the bounded-memory branch later raises the size it actually uses to at
least 1). -/
theorem sortedMatrixSize_bounds (D P N : ℕ) (M : ℚ) (hN : 1 ≤ N)
    (hP : 1 ≤ P) (hM : fullMatrixCost D N / 2 ≤ M) :
    0 ≤ sortedMatrixSize D P N M ∧ sortedMatrixSize D P N M ≤ (N : ℤ) := by
  refine ⟨?_, sortedMatrixSize_le D P N M⟩
  have hq : (0 : ℚ) ≤ (M - fullMatrixCost D N / 2) / ((N : ℚ) * P) := by
    apply div_nonneg (by linarith) (by positivity)
  exact le_min (truncQ_nonneg hq) (by exact_mod_cast Nat.zero_le N)

/-- C2 (witness): the amended bounds at D = 8, P = 16, N = 10, M = 1000. -/
theorem sortedMatrixSize_bounds_witness :
    1 ≤ (10 : ℕ) ∧ 1 ≤ (16 : ℕ) ∧
      fullMatrixCost 8 10 / 2 ≤ (1000 : ℚ) ∧
      (0 ≤ sortedMatrixSize 8 16 10 1000 ∧
        sortedMatrixSize 8 16 10 1000 ≤ (10 : ℤ)) := by
  have hM : fullMatrixCost 8 10 / 2 ≤ (1000 : ℚ) := by
    unfold fullMatrixCost
    push_cast
    norm_num
  exact ⟨by decide, by decide, hM,
    sortedMatrixSize_bounds 8 16 10 1000 (by decide) (by decide) hM⟩

/-! ## Claim C5 — boundary scenario A -/

/-- C5 (counterexample): in scenario A (N = 1000, distance entry 8 bytes,
pair entry 16 bytes, M = 1 MB = 1048576 bytes) the computed
`sortedMatrixSize` is -184, not the claimed 0, and `diskSortedMatrixSize`
is 43 (floor(1048576 / 24000), well above the lower clamp), not the
claimed min(5, N) = 5. -/
theorem boundary_scenarioA_counterexample :
    sortedMatrixSize 8 16 1000 1048576 ≠ 0 ∧
    diskSortedMatrixSize 8 16 1000 1048576 ≠ 5 := by
  rw [sortedMatrixSize_scenarioA, diskSortedMatrixSize_scenarioA]
  decide

/-- C5 (amended): in scenario A the full-matrix cost 8,000,000 bytes indeed
exceeds M = 1048576, and (for any nonnegative sorted-fraction tunable) the
selector falls through to the Disk strategy; but `sortedMatrixSize` is -184
(negative, not clamped to 0) and the disk structure size is 43, the
unclamped floor of M / (N * (pairSize + distSize)), not 5. -/
theorem boundary_scenarioA {mf : ℚ} (hmf : 0 ≤ mf) :
    selectAlgorithm mf 8 16 1000 1048576 noOverrides = .ok (.disk 43) ∧
    sortedMatrixSize 8 16 1000 1048576 = -184 ∧
    diskSortedMatrixSize 8 16 1000 1048576 = 43 ∧
    (1048576 : ℚ) < fullMatrixCost 8 1000 := by
  refine ⟨selectAlgorithm_scenarioA hmf, sortedMatrixSize_scenarioA,
    diskSortedMatrixSize_scenarioA, ?_⟩
  unfold fullMatrixCost
  push_cast
  norm_num

/-- C5 (witness): the amended scenario at the concrete tunable 19/20. -/
theorem boundary_scenarioA_witness :
    (0 : ℚ) ≤ 19 / 20 ∧
    (selectAlgorithm (19 / 20) 8 16 1000 1048576 noOverrides = .ok (.disk 43) ∧
      sortedMatrixSize 8 16 1000 1048576 = -184 ∧
      diskSortedMatrixSize 8 16 1000 1048576 = 43 ∧
      (1048576 : ℚ) < fullMatrixCost 8 1000) :=
  ⟨by norm_num, boundary_scenarioA (by norm_num)⟩

/-! ## Claim C3 — selector monotonicity in the memory budget -/

theorem tier_of_bounded_branch {mf : ℚ} {D P N : ℕ} {M : ℚ} {ov : Overrides}
    {c : AlgorithmChoice} (hc1 : ¬cond1 D P N M ov = true)
    (hc2 : cond2 mf D P N M ov = true)
    (h : selectAlgorithm mf D P N M ov = .ok c) : tier c = 1 := by
  rw [selectAlgorithm, if_neg hc1, if_pos hc2] at h
  rcases hp : ov.percentageMemoryUsage with _ | p <;> rw [hp] at h <;>
    dsimp only at h
  · simp only [Except.ok.injEq] at h
    subst h
    rfl
  · by_cases hr : p < 0 ∨ 100 < p
    · rw [if_pos hr] at h
      exact Except.noConfusion h
    · rw [if_neg hr] at h
      simp only [Except.ok.injEq] at h
      subst h
      rfl

/-- C3: holding the matrix size, the per-entry sizes, the tunable fraction
and the overrides fixed, a larger memory budget never yields a strictly more
constrained capability tier (`FullMemory` > `BoundedMemory` > `Disk`; the
override-only `Naive` is excluded from the ordering). -/
theorem selector_monotone (mf : ℚ) (D P N : ℕ) (M₁ M₂ : ℚ) (ov : Overrides)
    (c₁ c₂ : AlgorithmChoice) (hM : M₁ ≤ M₂) (hN : 1 ≤ N) (hP : 1 ≤ P)
    (h₁ : selectAlgorithm mf D P N M₁ ov = .ok c₁)
    (h₂ : selectAlgorithm mf D P N M₂ ov = .ok c₂)
    (hn₁ : c₁ ≠ .naive) (hn₂ : c₂ ≠ .naive) :
    tier c₁ ≤ tier c₂ := by
  by_cases hc1 : cond1 D P N M₁ ov = true
  · have hc1b := cond1_mono hM hc1
    rw [selectAlgorithm, if_pos hc1] at h₁
    rw [selectAlgorithm, if_pos hc1b] at h₂
    simp only [Except.ok.injEq] at h₁ h₂
    subst h₁
    subst h₂
    exact le_refl _
  · by_cases hc2 : cond2 mf D P N M₁ ov = true
    · have ht1 := tier_of_bounded_branch hc1 hc2 h₁
      by_cases hc1b : cond1 D P N M₂ ov = true
      · rw [selectAlgorithm, if_pos hc1b] at h₂
        simp only [Except.ok.injEq] at h₂
        subst h₂
        rw [ht1]
        exact one_le_two
      · have ht2 := tier_of_bounded_branch hc1b (cond2_mono hM hc2) h₂
        rw [ht1, ht2]
    · rw [selectAlgorithm, if_neg hc1, if_neg hc2] at h₁
      by_cases hs : ov.forceSimpleNJ = true
      · rw [if_pos hs] at h₁
        simp only [Except.ok.injEq] at h₁
        subst h₁
        exact absurd rfl hn₁
      · rw [if_neg hs] at h₁
        simp only [Except.ok.injEq] at h₁
        subst h₁
        exact Nat.zero_le _

theorem selectAlgorithm_zeroBudget :
    selectAlgorithm (19 / 20) 8 16 10 0 noOverrides = .ok (.disk 5) := by
  have hs : sortedMatrixSize 8 16 10 0 = -2 := by
    have h1 : ((0 : ℚ) - fullMatrixCost 8 10 / 2) /
        (((10 : ℕ) : ℚ) * ((16 : ℕ) : ℚ)) = -5 / 2 := by
      unfold fullMatrixCost
      push_cast
      norm_num
    have h2 : (⌈(-5 / 2 : ℚ)⌉ : ℤ) = -2 := by
      rw [Int.ceil_eq_iff]
      constructor <;> norm_num
    unfold sortedMatrixSize
    rw [h1, truncQ_eq_ceil (by norm_num), h2]
    decide
  have hc1 : cond1 8 16 10 0 noOverrides = false := by
    rw [cond1_noOverrides]
    simp only [decide_eq_false_iff_not, sortedMatrixCost, fullMatrixCost]
    push_cast
    norm_num
  have hc2 : cond2 (19 / 20) 8 16 10 0 noOverrides = false := by
    rw [cond2_noOverrides, hs]
    simp only [decide_eq_false_iff_not]
    push_cast
    norm_num
  have hd : diskSortedMatrixSize 8 16 10 0 = 5 := by
    have h1 : (0 : ℚ) / (((10 : ℕ) : ℚ) * (((16 : ℕ) : ℚ) + ((8 : ℕ) : ℚ))) = 0 := by
      norm_num
    unfold diskSortedMatrixSize
    rw [h1, truncQ_eq_floor (by norm_num)]
    decide
  rw [selectAlgorithm, if_neg (by simp [hc1]), if_neg (by simp [hc2]),
    if_neg (by simp [noOverrides]), hd]

/-- C3 (witness): with budgets 0 and 1 GB at N = 10, the smaller budget
selects Disk and the larger FullMemory, and the tiers are ordered. -/
theorem selector_monotone_witness :
    (0 : ℚ) ≤ 1073741824 ∧ 1 ≤ (10 : ℕ) ∧ 1 ≤ (16 : ℕ) ∧
    selectAlgorithm (19 / 20) 8 16 10 0 noOverrides = .ok (.disk 5) ∧
    selectAlgorithm (19 / 20) 8 16 10 1073741824 noOverrides = .ok .fullMemory ∧
    AlgorithmChoice.disk 5 ≠ .naive ∧ AlgorithmChoice.fullMemory ≠ .naive ∧
    tier (.disk 5) ≤ tier .fullMemory := by
  refine ⟨by norm_num, by decide, by decide, selectAlgorithm_zeroBudget,
    selectAlgorithm_scenarioB (19 / 20), by decide, by decide, ?_⟩
  exact selector_monotone (19 / 20) 8 16 10 0 1073741824 noOverrides
    (.disk 5) .fullMemory (by norm_num) (by decide) (by decide)
    selectAlgorithm_zeroBudget (selectAlgorithm_scenarioB (19 / 20))
    (by decide) (by decide)

/-! ## Claim C4 — automatic FullMemory selection criterion -/

/-- C4: with no overrides set, the selector chooses FullMemory exactly when
the full matrix and the fully materialised sorted matrix both fit,
`fullMatrixCost + sortedMatrixCost ≤ M`; in particular for N = 10 and
M = 1 GB (scenario B, with entry sizes 8 and 16) it returns FullMemory. -/
theorem selector_fullMemory_iff (mf : ℚ) (D P N : ℕ) (M : ℚ) :
    (selectAlgorithm mf D P N M noOverrides = .ok .fullMemory ↔
      fullMatrixCost D N + sortedMatrixCost P N ≤ M) ∧
    selectAlgorithm mf 8 16 10 1073741824 noOverrides = .ok .fullMemory := by
  refine ⟨⟨fun h => ?_, fun h => ?_⟩, selectAlgorithm_scenarioB mf⟩
  · by_cases hc1 : cond1 D P N M noOverrides = true
    · rw [cond1_noOverrides] at hc1
      simp only [decide_eq_true_eq] at hc1
      linarith
    · exfalso
      rw [selectAlgorithm, if_neg hc1] at h
      by_cases hc2 : cond2 mf D P N M noOverrides = true
      · rw [if_pos hc2] at h
        simp only [noOverrides] at h
        simp only [Except.ok.injEq] at h
        exact AlgorithmChoice.noConfusion h
      · rw [if_neg hc2, if_neg (by simp [noOverrides])] at h
        simp only [Except.ok.injEq] at h
        exact AlgorithmChoice.noConfusion h
  · have hc1 : cond1 D P N M noOverrides = true := by
      rw [cond1_noOverrides]
      simp only [decide_eq_true_eq]
      linarith
    rw [selectAlgorithm, if_pos hc1]

/-! ## Claim C8 — memory-percentage override validation -/

/-- C8 (counterexample): an out-of-range percentage (200) does NOT terminate
the run when the force-full-memory override is also set: the first branch of
`computeTree` wins and the percentage is never validated, so the claimed
"fatal if and only if out of range whenever the override is supplied" fails. -/
theorem percentage_ignored_when_full_forced :
    ((200 : ℤ) < 0 ∨ 100 < (200 : ℤ)) ∧
    selectAlgorithm (19 / 20) 8 16 10 1073741824
      ⟨true, false, some 200, false⟩ = .ok .fullMemory := by
  refine ⟨by norm_num, ?_⟩
  have hc1 : cond1 8 16 10 1073741824 ⟨true, false, some 200, false⟩ = true := by
    simp [cond1]
  rw [selectAlgorithm, if_pos hc1]

/-- C8 (amended): whenever the memory-percentage override is supplied and
the force-full-memory override is not set, the run terminates fatally if
and only if the parsed value is outside 0-100; for in-range values the
selector proceeds and returns the bounded-memory choice. (If force-full is
set, the percentage is ignored entirely, see the counterexample.) -/
theorem percentage_validation (mf : ℚ) (D P N : ℕ) (M : ℚ) (ov : Overrides)
    (p : ℤ) (hp : ov.percentageMemoryUsage = some p)
    (hforce : ov.forceRapidNJ = false) :
    (selectAlgorithm mf D P N M ov = .error .badPercentage ↔
      (p < 0 ∨ 100 < p)) ∧
    (¬(p < 0 ∨ 100 < p) →
      selectAlgorithm mf D P N M ov =
        .ok (.boundedMemory (max (truncQ ((N : ℚ) * ((p : ℚ) / 100))) 1))) := by
  have hauto : autoDecide ov = false := by
    simp [autoDecide, hp]
  have hc1 : cond1 D P N M ov = false := by
    simp [cond1, hforce, hauto]
  have hc2 : cond2 mf D P N M ov = true := by
    simp [cond2, hp]
  rw [selectAlgorithm, if_neg (by simp [hc1]), if_pos hc2, hp]
  dsimp only
  by_cases hr : p < 0 ∨ 100 < p
  · rw [if_pos hr]
    simp [hr]
  · rw [if_neg hr]
    simp [hr]

/-- C8 (witness): the amended statement at the out-of-range value 200 with
force-full unset, where the selector does fail fatally. -/
theorem percentage_validation_witness :
    ((⟨false, false, some 200, false⟩ : Overrides).percentageMemoryUsage =
      some 200) ∧
    ((⟨false, false, some 200, false⟩ : Overrides).forceRapidNJ = false) ∧
    (selectAlgorithm (19 / 20) 8 16 10 1073741824
        ⟨false, false, some 200, false⟩ = .error .badPercentage ↔
      ((200 : ℤ) < 0 ∨ 100 < (200 : ℤ))) :=
  ⟨rfl, rfl,
    (percentage_validation (19 / 20) 8 16 10 1073741824
      ⟨false, false, some 200, false⟩ 200 rfl rfl).1⟩

/-! ## Claim C10 — bounded-memory branch size is in [1, N] -/

/-- C10: whenever the selector takes the bounded-memory branch, the size it
hands to the memory-bounded tree builder is at least 1 (the final clamp
raises zero or negative computed capacities, including a 0% user
percentage, to 1) and never exceeds N. -/
theorem bounded_branch_size_bounds (mf : ℚ) (D P N : ℕ) (M : ℚ)
    (ov : Overrides) (s : ℤ) (hN : 1 ≤ N)
    (h : selectAlgorithm mf D P N M ov = .ok (.boundedMemory s)) :
    1 ≤ s ∧ s ≤ (N : ℤ) := by
  by_cases hc1 : cond1 D P N M ov = true
  · rw [selectAlgorithm, if_pos hc1] at h
    simp only [Except.ok.injEq] at h
    exact AlgorithmChoice.noConfusion h
  · by_cases hc2 : cond2 mf D P N M ov = true
    · rw [selectAlgorithm, if_neg hc1, if_pos hc2] at h
      rcases hp : ov.percentageMemoryUsage with _ | p <;> rw [hp] at h <;>
        dsimp only at h
      · simp only [Except.ok.injEq, AlgorithmChoice.boundedMemory.injEq] at h
        subst h
        exact ⟨le_max_right _ 1,
          max_le (sortedMatrixSize_le D P N M) (by exact_mod_cast hN)⟩
      · by_cases hr : p < 0 ∨ 100 < p
        · rw [if_pos hr] at h
          exact Except.noConfusion h
        · rw [if_neg hr] at h
          simp only [Except.ok.injEq, AlgorithmChoice.boundedMemory.injEq] at h
          subst h
          push_neg at hr
          refine ⟨le_max_right _ 1, max_le ?_ (by exact_mod_cast hN)⟩
          have hq : (N : ℚ) * ((p : ℚ) / 100) ≤ (N : ℚ) := by
            have hp1 : ((p : ℚ) / 100) ≤ 1 := by
              rw [div_le_one (by norm_num)]
              exact_mod_cast hr.2
            exact mul_le_of_le_one_right (by positivity) hp1
          calc truncQ ((N : ℚ) * ((p : ℚ) / 100)) ≤ truncQ (N : ℚ) :=
              truncQ_mono hq
            _ = ⌊(N : ℚ)⌋ := truncQ_eq_floor (by positivity)
            _ = (N : ℤ) := Int.floor_natCast N
    · rw [selectAlgorithm, if_neg hc1, if_neg hc2] at h
      by_cases hs : ov.forceSimpleNJ = true
      · rw [if_pos hs] at h
        simp only [Except.ok.injEq] at h
        exact AlgorithmChoice.noConfusion h
      · rw [if_neg hs] at h
        simp only [Except.ok.injEq] at h
        exact AlgorithmChoice.noConfusion h

theorem selectAlgorithm_pctZero :
    selectAlgorithm (19 / 20) 8 16 10 0 ⟨false, false, some 0, false⟩ =
      .ok (.boundedMemory 1) := by
  have hc1 : cond1 8 16 10 0 ⟨false, false, some 0, false⟩ = false := by
    simp [cond1, autoDecide]
  have hc2 : cond2 (19 / 20) 8 16 10 0 ⟨false, false, some 0, false⟩ = true := by
    simp [cond2]
  rw [selectAlgorithm, if_neg (by simp [hc1]), if_pos hc2]
  dsimp only
  rw [if_neg (by norm_num : ¬((0 : ℤ) < 0 ∨ 100 < (0 : ℤ)))]
  have ht : truncQ (((10 : ℕ) : ℚ) * (((0 : ℤ) : ℚ) / 100)) = 0 := by
    have h0 : ((10 : ℕ) : ℚ) * (((0 : ℤ) : ℚ) / 100) = 0 := by
      push_cast
      norm_num
    rw [h0, truncQ_eq_floor le_rfl, Int.floor_zero]
  rw [ht]
  norm_num

/-- C10 (witness): a 0% user percentage at zero budget is raised to a
sorted-matrix size of exactly 1, within [1, N]. -/
theorem bounded_branch_size_bounds_witness :
    1 ≤ (10 : ℕ) ∧
    selectAlgorithm (19 / 20) 8 16 10 0 ⟨false, false, some 0, false⟩ =
      .ok (.boundedMemory 1) ∧
    (1 ≤ (1 : ℤ) ∧ (1 : ℤ) ≤ ((10 : ℕ) : ℤ)) :=
  ⟨by decide, selectAlgorithm_pctZero,
    bounded_branch_size_bounds (19 / 20) 8 16 10 0
      ⟨false, false, some 0, false⟩ 1 (by decide) selectAlgorithm_pctZero⟩

/-! ## Claim C9 — distance-matrix text serialization -/

theorem str_append_assoc (a b c : String) : a ++ b ++ c = a ++ (b ++ c) := by
  apply String.ext
  simp [String.data_append, List.append_assoc]

theorem concat_map_space (l : List String) (h : l ≠ []) :
    concatChunks (l.map (fun s => s ++ " ")) = sepBySpace l ++ " " := by
  induction l with
  | nil => exact absurd rfl h
  | cons a t ih =>
    rcases t with _ | ⟨b, t2⟩
    · show (a ++ " ") ++ concatChunks [] = a ++ " "
      show (a ++ " ") ++ "" = a ++ " "
      apply String.ext
      simp [String.data_append]
    · show (a ++ " ") ++ concatChunks ((b :: t2).map (fun s => s ++ " ")) =
        (a ++ " " ++ sepBySpace (b :: t2)) ++ " "
      rw [ih (by simp)]
      rw [str_append_assoc, str_append_assoc]
      exact (str_append_assoc _ _ _).symm

theorem fmt6_zero : fmt6 0 = "0.000000" := by
  have h : round (|(0 : ℚ)| * 1000000) = 0 := by
    simp
  unfold fmt6
  rw [h, if_neg (lt_irrefl (0 : ℚ))]
  decide

/-- C9 (counterexample): for a 1-by-1 matrix the emitted row is
`a<TAB>0.000000<SPACE><NL>` — each distance is followed by a space, so the
row carries a trailing space and differs from the claimed space-separated
format `a<TAB>0.000000<NL>`. -/
theorem matrix_serialization_trailing_space :
    printDistanceMatrix 1 (fun _ => "a") (fun _ _ => 0) ≠
      claimedPrintDistanceMatrix 1 (fun _ => "a") (fun _ _ => 0) := by
  have h1 : printDistanceMatrix 1 (fun _ => "a") (fun _ _ => 0) =
      "\t" ++ toString (1 : ℕ) ++ "\n" ++
        (("a" ++ "\t" ++ ((fmt6 0 ++ " ") ++ "") ++ "\n") ++ "") := rfl
  have h2 : claimedPrintDistanceMatrix 1 (fun _ => "a") (fun _ _ => 0) =
      "\t" ++ toString (1 : ℕ) ++ "\n" ++
        (("a" ++ "\t" ++ fmt6 0 ++ "\n") ++ "") := rfl
  rw [h1, h2, fmt6_zero]
  decide

/-- C9 (amended): the serialization emits a first line consisting of a tab
then the integer N, followed by N lines of the form name, tab, the N
distances at fixed 6-decimal precision space-separated — but with one
trailing space after the last distance of each row (every distance is
followed by a space). -/
theorem matrix_serialization_format (N : ℕ) (names : ℕ → String)
    (matrix : ℕ → ℕ → ℚ) :
    printDistanceMatrix N names matrix =
      "\t" ++ toString N ++ "\n" ++
        concatChunks ((List.range N).map (fun i =>
          names i ++ "\t" ++
            sepBySpace ((List.range N).map (fun j => fmt6 (matrix i j))) ++
            " \n")) := by
  unfold printDistanceMatrix
  rcases N with _ | n
  · simp
  · apply congrArg
    apply congrArg
    apply List.map_congr_left
    intro i _
    have hne : ((List.range (n + 1)).map (fun j => fmt6 (matrix i j))) ≠ [] := by
      simp
    have hmm : ((List.range (n + 1)).map (fun j => fmt6 (matrix i j) ++ " ")) =
        ((List.range (n + 1)).map (fun j => fmt6 (matrix i j))).map
          (fun s => s ++ " ") := by
      rw [List.map_map]
      rfl
    rw [hmm, concat_map_space _ hne]
    apply String.ext
    simp [String.data_append, List.append_assoc]
